import Mathlib

/-!
# Verification of the gitlab-cmds configuration and traversal core

Shallow embedding of the `jalitriver/gitlab-cmds` repository:

* the three-phase option resolution performed by `GlobalCommand.Run`
  together with `GlobalOptions.Initialize`, `Options.LoadFromXMLFile`
  and `flag.FlagSet.Parse` (`cmd/internal/commands/global_command.go`);
* the paginated traversal utilities `FindExactGroup`,
  `ForEachProjectInGroup`, `GetAllProjects`,
  `ForEachApprovalRuleInProject`, `ForEachUser` and the approval-rule
  reconstruction `UpdateApprovalRule`
  (`cmd/internal/gitlab_util/gitlab_util.go`);
* the bulk commands `CreateRandomProject`/`CreateRandomProjects`
  (`cmd/internal/commands/projects_create_random.go`),
  `DeleteProject`/`DeleteProjects`
  (`cmd/internal/commands/project_delete_command.go`) and
  `ProjectsApprovalRulesUpdateCommand.Run`
  (`cmd/internal/commands/projects_approval_rules_update_command.go`).

Go errors are embedded as `Except String`; the wrapped error text of
`fmt.Errorf` is modelled by string concatenation of the same format
strings.  Network effects (pages fetched, mutation calls issued, lines
printed) are made explicit: a paginated listing endpoint of the backing
REST collaborator is a finite list of page responses consumed in cursor
order (the collaborator answers page `n` with `NextPage = n+1` while
pages remain and `NextPage = 0` on the last page, so the Go
`opts.Page = 1 / resp.NextPage` loop consumes the response list in
order, one fetch per list element), and mutating functions return the
list of network mutation calls they issued together with the lines they
printed.
-/

namespace GitlabCmds

/-! ## Option resolution (global_command.go)

`GlobalOptions` mirrors the Go struct field for field.  The Go zero
value produced by `new(Options)` is `GlobalOptions.zero`.
-/

structure GlobalOptions where
  AuthFileName : String
  BaseURL : String
  Help : Bool
  OptionsFileName : String
  ShowOptions : Bool
  Version : Bool
deriving Repr, DecidableEq

/-- The Go zero value of `GlobalOptions` (all fields of `new(Options)`
start as `""`/`false`). -/
def GlobalOptions.zero : GlobalOptions :=
  ⟨"", "", false, "", false, false⟩

/-- Embeds `GlobalOptions.Initialize` (global_command.go lines 119-160):
it overwrites `AuthFileName`, `BaseURL` and `OptionsFileName` with the
hard-coded defaults and registers the command-line flags (flag
registration itself is modelled by `GlobalOptions.parseFlags` below);
`Help`, `ShowOptions` and `Version` keep their zero defaults. -/
def GlobalOptions.initDefaults (opts : GlobalOptions) : GlobalOptions :=
  { opts with
    AuthFileName := "auth.xml"
    BaseURL := "https://gitlab.com/"
    OptionsFileName := "options.xml" }

/-- An options.xml document, as far as `GlobalOptions` is concerned:
for each XML element name that can appear under `<global-options>`,
whether the file supplies a value for it.  The Go struct tags map
`auth-file-name`, `base-url`, `help` and `version` to fields, while
`OptionsFileName` and `ShowOptions` carry the tag `xml:"-"`, so the
decoder never assigns them; `optionsFileName` records that the document
*attempts* to set the options-file location (such an element is simply
skipped by the decoder because no field carries its tag). -/
structure GlobalOptionsXml where
  authFileName : Option String
  baseURL : Option String
  help : Option Bool
  version : Option Bool
  optionsFileName : Option String
deriving Repr, DecidableEq

/-- Embeds the effect of `xml.Decoder.Decode` on the `GlobalOpts`
substructure in `Options.LoadFromXMLFile` (global_command.go lines
56-73): every field whose tag occurs in the document is overwritten
with the document value, every other field keeps its prior value, and
the fields tagged `xml:"-"` (`OptionsFileName`, `ShowOptions`) are
never assigned, even when the document carries an element that attempts
to set them. -/
def GlobalOptions.decodeXml (opts : GlobalOptions) (x : GlobalOptionsXml) :
    GlobalOptions :=
  { opts with
    AuthFileName := x.authFileName.getD opts.AuthFileName
    BaseURL := x.baseURL.getD opts.BaseURL
    Help := x.help.getD opts.Help
    Version := x.version.getD opts.Version }

/-- The global flags the user actually supplied on the command line
(`none` = flag absent).  `-h`/`--help` and `-v`/`--version` bind the
same fields and are modelled as one entry each. -/
structure GlobalFlagArgs where
  auth : Option String
  baseURL : Option String
  help : Option Bool
  options : Option String
  showOptions : Option Bool
  version : Option Bool
deriving Repr, DecidableEq

/-- Embeds `flag.FlagSet.Parse` for the flags registered by
`GlobalOptions.Initialize`: each flag that was supplied on the command
line overwrites the bound field; absent flags leave the field at the
value it had when parsing started. -/
def GlobalOptions.parseFlags (opts : GlobalOptions) (a : GlobalFlagArgs) :
    GlobalOptions :=
  { AuthFileName := a.auth.getD opts.AuthFileName
    BaseURL := a.baseURL.getD opts.BaseURL
    Help := a.help.getD opts.Help
    OptionsFileName := a.options.getD opts.OptionsFileName
    ShowOptions := a.showOptions.getD opts.ShowOptions
    Version := a.version.getD opts.Version }

/-- The order of the three resolution passes for the global options in
`GlobalCommand.Run` (global_command.go lines 440-461): hard-coded
defaults are registered at command construction (`NewGlobalCommand`
calls `Initialize`), then `LoadFromXMLFile` overwrites fields present
in the options.xml file, then `cmd.flags.Parse(args)` overwrites fields
whose flags the user supplied. -/
def resolveGlobalOptions (x : GlobalOptionsXml) (a : GlobalFlagArgs) :
    GlobalOptions :=
  GlobalOptions.parseFlags
    (GlobalOptions.decodeXml (GlobalOptions.initDefaults GlobalOptions.zero) x)
    a

/-! `ProjectsCreateRandomOptions` mirrors the options struct of a leaf
subcommand (projects_create_random.go lines 32-49); its hard-coded
defaults are the Go zero values, registered when the subcommand is
constructed during `GlobalCommand.Run`'s `generateSubcmds` step, before
the XML file is loaded; the final command-line parse for these flags
happens in the subcommand's `Run`, after the file load. -/

structure ProjectsCreateRandomOptions where
  DryRun : Bool
  ParentGroup : String
  ProjectBaseName : String
  ProjectCount : Nat
deriving Repr, DecidableEq

/-- Go zero value of `ProjectsCreateRandomOptions`; its `Initialize`
sets no non-zero defaults, so construction registers exactly these. -/
def ProjectsCreateRandomOptions.zero : ProjectsCreateRandomOptions :=
  ⟨false, "", "", 0⟩

/-- The `<create-random-options>` subtree of an options.xml document:
all four fields carry XML tags, so each may be supplied by the file. -/
structure ProjectsCreateRandomXml where
  dryRun : Option Bool
  parentGroup : Option String
  projectBaseName : Option String
  projectCount : Option Nat
deriving Repr, DecidableEq

/-- Embeds the XML decode of the `ProjectsCreateRandomOptions`
substructure: fields present in the file overwrite, absent fields keep
their prior value. -/
def ProjectsCreateRandomOptions.decodeXml
    (opts : ProjectsCreateRandomOptions) (x : ProjectsCreateRandomXml) :
    ProjectsCreateRandomOptions :=
  { DryRun := x.dryRun.getD opts.DryRun
    ParentGroup := x.parentGroup.getD opts.ParentGroup
    ProjectBaseName := x.projectBaseName.getD opts.ProjectBaseName
    ProjectCount := x.projectCount.getD opts.ProjectCount }

/-- The create-random flags the user supplied on the command line. -/
structure ProjectsCreateRandomFlagArgs where
  dryRun : Option Bool
  parentGroup : Option String
  projectBaseName : Option String
  projectCount : Option Nat
deriving Repr, DecidableEq

/-- Embeds `flag.FlagSet.Parse` for the flags registered by
`ProjectsCreateRandomOptions.Initialize`. -/
def ProjectsCreateRandomOptions.parseFlags
    (opts : ProjectsCreateRandomOptions)
    (a : ProjectsCreateRandomFlagArgs) : ProjectsCreateRandomOptions :=
  { DryRun := a.dryRun.getD opts.DryRun
    ParentGroup := a.parentGroup.getD opts.ParentGroup
    ProjectBaseName := a.projectBaseName.getD opts.ProjectBaseName
    ProjectCount := a.projectCount.getD opts.ProjectCount }

/-- Full resolution for the create-random subcommand options: defaults
registered at subcommand construction, then the XML file, then the
final command-line parse. -/
def resolveProjectsCreateRandomOptions (x : ProjectsCreateRandomXml)
    (a : ProjectsCreateRandomFlagArgs) : ProjectsCreateRandomOptions :=
  ProjectsCreateRandomOptions.parseFlags
    (ProjectsCreateRandomOptions.decodeXml ProjectsCreateRandomOptions.zero x)
    a

/-! ## Resource model and page-cursor collaborator (gitlab_util.go) -/

/-- A GitLab group; only the fields the core reads. -/
structure Group where
  ID : Int
  FullPath : String
deriving Repr, DecidableEq

/-- A GitLab project; only the fields the core reads. -/
structure Project where
  ID : Int
  PathWithNamespace : String
deriving Repr, DecidableEq

/-- One page response of a paginated listing endpoint: either a
transport error or the page's items. -/
abbrev Page (α : Type) := Except String (List α)

/-- The backing `gitlab.GroupsService` collaborator: for each search
string, the sequence of page responses `ListGroups` yields when the
cursor is walked from page 1; for each group ID and
`IncludeSubGroups` flag, the page responses of `ListGroupProjects`. -/
structure GroupsService where
  searchPages : String → List (Page Group)
  projectPages : Int → Bool → List (Page Project)

/-- Modelled from the Go `regexp` collaborator, restricted to the
anchored-literal fragment exercised by this repository (a literal
string, optionally anchored with a leading `^` or a trailing
dollar sign): a compiled pattern. -/
structure Regexp where
  lit : String
  anchorStart : Bool
  anchorEnd : Bool
deriving Repr, DecidableEq

/-- Unanchored substring containment, the Go `MatchString` search for a
plain literal (stated over the character lists of the strings): some
position of `s` starts with `sub`.  The empty literal is contained in
every string. -/
def containsSubstr (s sub : String) : Bool :=
  (List.range (s.length + 1)).any fun i =>
    sub.toList.isPrefixOf (s.toList.drop i)

/-- `(*Regexp).MatchString` on the anchored-literal fragment: both
anchors require exact equality, a leading anchor requires the literal
at the start, a trailing anchor at the end, and no anchor means
substring containment.  The empty pattern compiles to the unanchored
empty literal and therefore matches every string, exactly as Go's
empty regular expression does. -/
def Regexp.MatchString (r : Regexp) (s : String) : Bool :=
  match r.anchorStart, r.anchorEnd with
  | true, true => s.toList == r.lit.toList
  | true, false => r.lit.toList.isPrefixOf s.toList
  | false, true => r.lit.toList.isSuffixOf s.toList
  | false, false => containsSubstr s r.lit

/-- `regexp.Compile` on the anchored-literal fragment, where
compilation always succeeds: strip the anchors and keep the literal. -/
def Regexp.compile (expr : String) : Except String Regexp :=
  let cs := expr.toList
  let hasStart := cs.take 1 == ['^']
  let cs1 := if hasStart then cs.drop 1 else cs
  let hasEnd := cs1.getLast? == some '$'
  let lit := if hasEnd then cs1.dropLast else cs1
  .ok ⟨String.mk lit, hasStart, hasEnd⟩

/-- The `%q` rendering used by `fmt.Errorf` for the plain names in
this development. -/
def quoteGo (s : String) : String := "\"" ++ s ++ "\""

/-- The page-cursor loop of `FindExactGroup` (gitlab_util.go lines
35-58), by structural recursion on the remaining page responses: fetch
the next page (a fetch error is wrapped and returned), return the
first group of the page whose `FullPath` equals the search string
exactly, and otherwise follow `resp.NextPage` until it is 0 — i.e.
until the response list is exhausted — in which case the not-found
error is returned. -/
def findExactGroupPages (group : String) :
    List (Page Group) → Except String Group
  | [] =>
      .error ("FindExactGroup: could not find exact match for group: " ++
        quoteGo group)
  | page :: rest =>
      match page with
      | .error e => .error ("FindExactGroup: " ++ e)
      | .ok gs =>
          match gs.find? (fun g => g.FullPath == group) with
          | some g => .ok g
          | none => findExactGroupPages group rest

/-- `FindExactGroup` (gitlab_util.go lines 27-64): walk the pages that
the fuzzy `ListGroups` search yields for the requested name. -/
def FindExactGroup (s : GroupsService) (group : String) :
    Except String Group :=
  findExactGroupPages group (s.searchPages group)

/-! ### ForEachProjectInGroup / GetAllProjects

The Go visitor `f func(*gitlab.Group, *gitlab.Project) (bool, error)`
mutates caller state through its closure; the embedding threads that
state explicitly: a visitor takes the state, the group and the project
and returns `(more, newState)` or an error. -/

/-- The inner item loop of `ForEachProjectInGroup` (gitlab_util.go
lines 116-126): visit, in page order, each project whose
`PathWithNamespace` matches the compiled pattern; a visitor error
aborts, `more = false` stops; the returned `Bool` says whether the
outer loop should continue with further pages. -/
def forEachProjectPage {σ : Type}
    (f : σ → Group → Project → Except String (Bool × σ)) (g : Group)
    (r : Regexp) : σ → List Project → Except String (Bool × σ)
  | s, [] => .ok (true, s)
  | s, p :: ps =>
      if r.MatchString p.PathWithNamespace then
        match f s g p with
        | .error e => .error e
        | .ok (false, s') => .ok (false, s')
        | .ok (true, s') => forEachProjectPage f g r s' ps
      else
        forEachProjectPage f g r s ps

/-- The page loop of `ForEachProjectInGroup` (gitlab_util.go lines
106-137), by structural recursion on the remaining page responses: a
fetch error is wrapped (with the trailing newline of the Go format
string) and returned; after the item loop, a `false` from the visitor
returns nil immediately, and otherwise the cursor moves on until
`NextPage` is 0. -/
def forEachProjectPages {σ : Type}
    (f : σ → Group → Project → Except String (Bool × σ)) (g : Group)
    (r : Regexp) : σ → List (Page Project) → Except String σ
  | s, [] => .ok s
  | s, page :: rest =>
      match page with
      | .error e => .error ("ForEachProjectInGroup: " ++ e ++ "\n")
      | .ok ps =>
          match forEachProjectPage f g r s ps with
          | .error e => .error e
          | .ok (false, s') => .ok s'
          | .ok (true, s') => forEachProjectPages f g r s' rest

/-- `ForEachProjectInGroup` (gitlab_util.go lines 79-138): resolve the
group by exact match, compile the regular expression, then walk the
group's project pages (with the recursion flag forwarded as
`IncludeSubGroups`) invoking the visitor on every project whose full
path matches. -/
def ForEachProjectInGroup {σ : Type} (svc : GroupsService)
    (group expr : String) (recursive : Bool)
    (f : σ → Group → Project → Except String (Bool × σ)) (s : σ) :
    Except String σ :=
  match FindExactGroup svc group with
  | .error e => .error ("ForEachProjectInGroup: " ++ e)
  | .ok g =>
      match Regexp.compile expr with
      | .error e => .error ("ForEachProjectInGroup: " ++ e)
      | .ok r => forEachProjectPages f g r s (svc.projectPages g.ID recursive)

/-- `GetAllProjects` (gitlab_util.go lines 153-175): run
`ForEachProjectInGroup` with the collecting callback that always
continues, wrapping a traversal error (the Go function then returns a
nil slice alongside the error). -/
def GetAllProjects (svc : GroupsService) (group expr : String)
    (recursive : Bool) : Except String (List Project) :=
  match ForEachProjectInGroup svc group expr recursive
      (fun s _ p => .ok (true, s ++ [p])) ([] : List Project) with
  | .error e => .error ("GetAllProjects: " ++ e)
  | .ok s => .ok s

/-- The pure page-by-page specification of what a full project
traversal collects: the first fetch error (wrapped as the traversal
wraps it) if any page errs, and otherwise the concatenation, in page
order, of each page's projects whose full path matches the pattern. -/
def matchedProjects (r : Regexp) : List (Page Project) → Except String (List Project)
  | [] => .ok []
  | .error e :: _ => .error ("ForEachProjectInGroup: " ++ e ++ "\n")
  | .ok ps :: rest =>
      match matchedProjects r rest with
      | .error e => .error e
      | .ok l => .ok (ps.filter (fun p => r.MatchString p.PathWithNamespace) ++ l)

/-! ## Approval rules (gitlab_util.go, part of package gitlab_util) -/

/-- A GitLab user; the fields read by the core. -/
structure User where
  ID : Int
  Username : String
  Email : String
  Name : String
deriving Repr, DecidableEq

/-- A protected branch; only its ID is read. -/
structure ProtectedBranch where
  ID : Int
deriving Repr, DecidableEq

/-- A project approval rule; the fields read by
`UpdateApprovalRule` and `ApprovalRuleToString`. -/
structure ProjectApprovalRule where
  ID : Int
  Name : String
  ApprovalsRequired : Int
  EligibleApprovers : List User
  Groups : List Group
  ProtectedBranches : List ProtectedBranch
  AppliesToAllProtectedBranches : Bool
deriving Repr, DecidableEq

/-- The body of `gitlab.UpdateProjectLevelRuleOptions` as filled in by
`UpdateApprovalRule`. -/
structure UpdateProjectLevelRuleOptions where
  Name : String
  ApprovalsRequired : Int
  UserIDs : List Int
  GroupIDs : List Int
  ProtectedBranchIDs : List Int
  AppliesToAllProtectedBranches : Bool
deriving Repr, DecidableEq

/-- The network message of one `UpdateProjectApprovalRule` call. -/
structure UpdateCall where
  projectID : Int
  ruleID : Int
  opts : UpdateProjectLevelRuleOptions
deriving Repr, DecidableEq

/-- The backing `UpdateProjectApprovalRule` endpoint. -/
structure UpdateRuleService where
  update : Int → Int → UpdateProjectLevelRuleOptions → Except String Unit

/-- `UpdateApprovalRule` (gitlab_util.go, lines 215-248 of the
approval-rule utility file): extract the rule's group and
protected-branch IDs, build the update options that copy every field
of the existing rule except the user-ID list, which is replaced by the
caller-supplied list, and send the update.  Returns the call that was
sent on the wire together with the service's answer. -/
def UpdateApprovalRule (svc : UpdateRuleService) (projectID : Int)
    (rule : ProjectApprovalRule) (userIDs : List Int) :
    UpdateCall × Except String Unit :=
  let groupIDs := rule.Groups.map (·.ID)
  let branchIDs := rule.ProtectedBranches.map (·.ID)
  let opts : UpdateProjectLevelRuleOptions :=
    { Name := rule.Name
      ApprovalsRequired := rule.ApprovalsRequired
      UserIDs := userIDs
      GroupIDs := groupIDs
      ProtectedBranchIDs := branchIDs
      AppliesToAllProtectedBranches := rule.AppliesToAllProtectedBranches }
  (⟨projectID, rule.ID, opts⟩, svc.update projectID rule.ID opts)

/-- The `ApprovalRulesGetter` collaborator: the page responses of
`GetProjectApprovalRules` for each project ID. -/
structure ApprovalRulesGetter where
  rulePages : Int → List (Page ProjectApprovalRule)

/-- The item loop of `ForEachApprovalRuleInProject` (gitlab_util.go
lines 223-231): every rule of the page is visited, a visitor error
aborts, `more = false` stops. -/
def forEachApprovalRulePage {σ : Type}
    (f : σ → ProjectApprovalRule → Except String (Bool × σ)) :
    σ → List ProjectApprovalRule → Except String (Bool × σ)
  | s, [] => .ok (true, s)
  | s, rule :: rules =>
      match f s rule with
      | .error e => .error e
      | .ok (false, s') => .ok (false, s')
      | .ok (true, s') => forEachApprovalRulePage f s' rules

/-- The page loop of `ForEachApprovalRuleInProject` (gitlab_util.go
lines 214-242), by structural recursion on the remaining page
responses. -/
def forEachApprovalRulePages {σ : Type}
    (f : σ → ProjectApprovalRule → Except String (Bool × σ)) :
    σ → List (Page ProjectApprovalRule) → Except String σ
  | s, [] => .ok s
  | s, page :: rest =>
      match page with
      | .error e => .error ("ForEachApprovalRuleInProject: " ++ e ++ "\n")
      | .ok rules =>
          match forEachApprovalRulePage f s rules with
          | .error e => .error e
          | .ok (false, s') => .ok s'
          | .ok (true, s') => forEachApprovalRulePages f s' rest

/-- `ForEachApprovalRuleInProject` (gitlab_util.go lines 200-243). -/
def ForEachApprovalRuleInProject {σ : Type} (svc : ApprovalRulesGetter)
    (p : Project) (f : σ → ProjectApprovalRule → Except String (Bool × σ))
    (s : σ) : Except String σ :=
  forEachApprovalRulePages f s (svc.rulePages p.ID)

/-! ## Users (gitlab_util.go) -/

/-- The backing `gitlab.UsersService` collaborator: the page responses
of `ListUsers` for a given optional search string (`ForEachUser` only
sets `opts.Search` when the search string is non-empty). -/
structure UsersService where
  userPages : Option String → List (Page User)

/-- The item loop of `ForEachUser` (gitlab_util.go lines 310-318). -/
def forEachUserPage {σ : Type}
    (f : σ → User → Except String (Bool × σ)) :
    σ → List User → Except String (Bool × σ)
  | s, [] => .ok (true, s)
  | s, u :: us =>
      match f s u with
      | .error e => .error e
      | .ok (false, s') => .ok (false, s')
      | .ok (true, s') => forEachUserPage f s' us

/-- The page loop of `ForEachUser` (gitlab_util.go lines 301-327). -/
def forEachUserPages {σ : Type}
    (f : σ → User → Except String (Bool × σ)) :
    σ → List (Page User) → Except String σ
  | s, [] => .ok s
  | s, page :: rest =>
      match page with
      | .error e => .error ("ForEachUser: " ++ e ++ "\n")
      | .ok us =>
          match forEachUserPage f s us with
          | .error e => .error e
          | .ok (false, s') => .ok s'
          | .ok (true, s') => forEachUserPages f s' rest

/-- `ForEachUser` (gitlab_util.go lines 286-330). -/
def ForEachUser {σ : Type} (svc : UsersService) (user : String)
    (f : σ → User → Except String (Bool × σ)) (s : σ) : Except String σ :=
  forEachUserPages f s (svc.userPages (if user = "" then none else some user))

/-! ## Bulk create (projects_create_random.go) and bulk delete
(project_delete_command.go)

The effects of one bulk command run: the lines it printed and the
network mutation calls it issued (`χ` is the payload of one call),
together with the returned Go error. -/

structure MutationRun (χ : Type) where
  output : List String
  calls : List χ
  result : Except String Unit
deriving Repr

/-- The body of `gitlab.CreateProjectOptions` as filled in by
`CreateRandomProject`. -/
structure CreateProjectOptions where
  NamespaceID : Int
  Path : String
  Description : String
  MergeRequestsEnabled : Bool
  SnippetsEnabled : Bool
  Visibility : String
deriving Repr, DecidableEq

/-- The backing `gitlab.ProjectsService` mutation endpoints. -/
structure ProjectsService where
  createProject : CreateProjectOptions → Except String Unit
  deleteProject : Int → Except String Unit

/-- `CreateRandomProject` (projects_create_random.go lines 149-182):
build the project path from the base name and the fresh UUID suffix
(the random draw is passed in as `suffix`), announce the project, and
issue the `CreateProject` call only when `dryRun` is false; on success
print `Done.`. -/
def CreateRandomProject (svc : ProjectsService) (parentGroup : Group)
    (projectBaseName : String) (suffix : String) (dryRun : Bool) :
    MutationRun CreateProjectOptions :=
  let relativePath := projectBaseName ++ "-" ++ suffix
  let fullPath := parentGroup.FullPath ++ "/" ++ relativePath
  let opts : CreateProjectOptions :=
    { NamespaceID := parentGroup.ID
      Path := relativePath
      Description := "Test Project"
      MergeRequestsEnabled := true
      SnippetsEnabled := true
      Visibility := "public" }
  let announce := "- Creating project: " ++ quoteGo fullPath ++ " ... "
  if dryRun then
    { output := [announce, "Done.\n"], calls := [], result := .ok () }
  else
    match svc.createProject opts with
    | .error e =>
        { output := [announce], calls := [opts],
          result := .error ("CreateProject: " ++ e) }
    | .ok _ =>
        { output := [announce, "Done.\n"], calls := [opts], result := .ok () }

/-- The `for i := 0; i < projectCount; i++` loop of
`CreateRandomProjects` (projects_create_random.go lines 205-210): `i`
is the next index into the UUID oracle, the second argument the number
of projects still to create; a per-item error is returned immediately,
ending the loop. -/
def createRandomProjectsLoop (svc : ProjectsService) (g : Group)
    (projectBaseName : String) (uuids : Nat → String) (dryRun : Bool) :
    Nat → Nat → MutationRun CreateProjectOptions
  | _, 0 => { output := [], calls := [], result := .ok () }
  | i, n + 1 =>
      let r := CreateRandomProject svc g projectBaseName (uuids i) dryRun
      match r.result with
      | .error e => { output := r.output, calls := r.calls, result := .error e }
      | .ok _ =>
          let rest := createRandomProjectsLoop svc g projectBaseName uuids dryRun (i + 1) n
          { output := r.output ++ rest.output
            calls := r.calls ++ rest.calls
            result := rest.result }

/-- `CreateRandomProjects` (projects_create_random.go lines 188-213):
resolve the parent group by exact match (an error is returned
unwrapped), then run the creation loop. -/
def CreateRandomProjects (gsvc : GroupsService) (psvc : ProjectsService)
    (uuids : Nat → String) (parentGroup projectBaseName : String)
    (projectCount : Nat) (dryRun : Bool) : MutationRun CreateProjectOptions :=
  let announce := "- Searching for ID for parent group " ++ quoteGo parentGroup ++ " ... "
  match FindExactGroup gsvc parentGroup with
  | .error e => { output := [announce], calls := [], result := .error e }
  | .ok g =>
      let rest := createRandomProjectsLoop psvc g projectBaseName uuids dryRun 0 projectCount
      { output := announce :: "Done.\n" :: rest.output
        calls := rest.calls
        result := rest.result }

/-- `DeleteProject` (project_delete_command.go lines 622-636): announce
the project, issue `DeleteProject` only when `dryRun` is false, print
`Done.` on success. -/
def DeleteProject (svc : ProjectsService) (p : Project) (dryRun : Bool) :
    MutationRun Int :=
  let announce := "- Deleting project: " ++ quoteGo p.PathWithNamespace ++ " ... "
  if dryRun then
    { output := [announce, "Done.\n"], calls := [], result := .ok () }
  else
    match svc.deleteProject p.ID with
    | .error e =>
        { output := [announce], calls := [p.ID],
          result := .error ("DeleteProject: " ++ e) }
    | .ok _ =>
        { output := [announce, "Done.\n"], calls := [p.ID], result := .ok () }

/-- The delete loop of `DeleteProjects` (project_delete_command.go
lines 661-666): a per-item error is wrapped and returned immediately,
ending the loop. -/
def deleteProjectsLoop (svc : ProjectsService) (dryRun : Bool) :
    List Project → MutationRun Int
  | [] => { output := [], calls := [], result := .ok () }
  | p :: ps =>
      let r := DeleteProject svc p dryRun
      match r.result with
      | .error e =>
          { output := r.output, calls := r.calls,
            result := .error ("DeleteProjects: " ++ e) }
      | .ok _ =>
          let rest := deleteProjectsLoop svc dryRun ps
          { output := r.output ++ rest.output
            calls := r.calls ++ rest.calls
            result := rest.result }

/-- `DeleteProjects` (project_delete_command.go lines 643-669): collect
all matching projects up front via `GetAllProjects`, then run the
delete loop over the materialized list. -/
def DeleteProjects (gsvc : GroupsService) (psvc : ProjectsService)
    (group expr : String) (recursive dryRun : Bool) : MutationRun Int :=
  let announce := "- Collecting projects ... "
  match GetAllProjects gsvc group expr recursive with
  | .error e =>
      { output := [announce], calls := [],
        result := .error ("DeleteProjects: " ++ e) }
  | .ok projects =>
      let rest := deleteProjectsLoop psvc dryRun projects
      { output := announce :: "Done.\n" :: rest.output
        calls := rest.calls
        result := rest.result }

/-! ## The "projects approval-rules update" command
(projects_approval_rules_update_command.go) -/

/-- A user entry of the approvers XML file (xml_users.go). -/
structure XmlUser where
  ID : Int
  Username : String
  Email : String
  Name : String
deriving Repr, DecidableEq

/-- The options of the "projects approval-rules update" command. -/
structure ProjectsApprovalRulesUpdateOptions where
  ApproversFileName : String
  DryRun : Bool
  Expr : String
  Group : String
  Recursive : Bool
deriving Repr, DecidableEq

/-- The command-local `updateApprovalRule` wrapper
(projects_approval_rules_update_command.go lines 168-185): announce the
rule, and perform the reconstruction update through
`UpdateApprovalRule` only when `dryRun` is false. -/
def updateApprovalRuleCmd (svc : UpdateRuleService) (projectID : Int)
    (rule : ProjectApprovalRule) (userIDs : List Int) (dryRun : Bool) :
    MutationRun UpdateCall :=
  let announce :=
    "    Updating rule " ++ toString rule.ID ++ " (" ++ quoteGo rule.Name ++ ") ... "
  if dryRun then
    { output := [announce, "Done.\n"], calls := [], result := .ok () }
  else
    match UpdateApprovalRule svc projectID rule userIDs with
    | (call, .error e) =>
        { output := [announce], calls := [call], result := .error e }
    | (call, .ok _) =>
        { output := [announce, "Done.\n"], calls := [call], result := .ok () }

/-- `ProjectsApprovalRulesUpdateCommand.Run`
(projects_approval_rules_update_command.go lines 188-238), after the
flag parse: validate the options, load the approvers file (the result
of `xml_users.ReadUsers` is passed in; on a read error the Go code
executes `return nil`, discarding the error before any traversal), map
the approvers to their IDs, and update every approval rule of every
matching project through the two nested traversals.  The `.ok` value
is the list of update calls issued on the wire (printing inside the
traversal is not tracked here). -/
def projectsApprovalRulesUpdateRun (gsvc : GroupsService)
    (rsvc : ApprovalRulesGetter) (usvc : UpdateRuleService)
    (readUsersResult : Except String (List XmlUser))
    (opts : ProjectsApprovalRulesUpdateOptions) :
    Except String (List UpdateCall) :=
  if opts.ApproversFileName = "" then .error "approvers file name not set"
  else if opts.Group = "" then .error "group not set"
  else
    match readUsersResult with
    | .error _ => .ok []
    | .ok approvers =>
        let approverIDs := approvers.map (·.ID)
        ForEachProjectInGroup gsvc opts.Group opts.Expr opts.Recursive
          (fun acc _ p =>
            match ForEachApprovalRuleInProject rsvc p
                (fun acc2 rule =>
                  let r := updateApprovalRuleCmd usvc p.ID rule approverIDs opts.DryRun
                  match r.result with
                  | .error e => .error e
                  | .ok _ => .ok (true, acc2 ++ r.calls)) acc with
            | .error e => .error e
            | .ok acc' => .ok (true, acc'))
          []

/-! ## Concrete collaborator instances used in scenarios -/

/-- A search service on which two distinct groups share the canonical
path `dup`. -/
def dupService : GroupsService where
  searchPages := fun _ => [.ok [⟨1, "dup"⟩, ⟨2, "dup"⟩]]
  projectPages := fun _ _ => []

/-- Root group `g1` containing exactly the projects `g1/a`, `g1/b` and
`g1/ax` on one page. -/
def g1Service : GroupsService where
  searchPages := fun _ => [.ok [⟨1, "g1"⟩]]
  projectPages := fun _ _ => [.ok [⟨10, "g1/a"⟩, ⟨11, "g1/b"⟩, ⟨12, "g1/ax"⟩]]

/-- A group service whose search fetch fails with a transport error. -/
def errorSearchService : GroupsService where
  searchPages := fun _ => [.error "boom"]
  projectPages := fun _ _ => []

/-- A projects service whose mutations all succeed. -/
def okProjectsService : ProjectsService where
  createProject := fun _ => .ok ()
  deleteProject := fun _ => .ok ()

/-- A projects service whose mutations all fail. -/
def failingProjectsService : ProjectsService where
  createProject := fun _ => .error "boom"
  deleteProject := fun _ => .error "boom"

/-- A rules getter with one single-rule page for every project. -/
def oneRuleGetter : ApprovalRulesGetter where
  rulePages := fun _ => [.ok [⟨7, "r1", 1, [], [], [], false⟩]]

/-- An update endpoint that always succeeds. -/
def okUpdateService : UpdateRuleService where
  update := fun _ _ _ => .ok ()

/-! ## Theorems -/

/-- C1: Three-way option precedence.  For every option field of the
global options and of a leaf subcommand's options, after full
resolution the field holds the CLI value if the user supplied the flag;
otherwise the config-file value if the field was present in the
options.xml file; otherwise the hard-coded default registered at
(sub)command construction — because `GlobalCommand.Run` generates the
subcommands (registering defaults) before loading the XML file and
performs the final command-line parse after the file load. -/
theorem three_way_option_precedence (x : GlobalOptionsXml)
    (a : GlobalFlagArgs) (y : ProjectsCreateRandomXml)
    (b : ProjectsCreateRandomFlagArgs) :
    (resolveGlobalOptions x a).AuthFileName
        = a.auth.getD (x.authFileName.getD "auth.xml")
    ∧ (resolveGlobalOptions x a).BaseURL
        = a.baseURL.getD (x.baseURL.getD "https://gitlab.com/")
    ∧ (resolveGlobalOptions x a).Help = a.help.getD (x.help.getD false)
    ∧ (resolveGlobalOptions x a).OptionsFileName
        = a.options.getD "options.xml"
    ∧ (resolveGlobalOptions x a).ShowOptions = a.showOptions.getD false
    ∧ (resolveGlobalOptions x a).Version
        = a.version.getD (x.version.getD false)
    ∧ (resolveProjectsCreateRandomOptions y b).DryRun
        = b.dryRun.getD (y.dryRun.getD false)
    ∧ (resolveProjectsCreateRandomOptions y b).ParentGroup
        = b.parentGroup.getD (y.parentGroup.getD "")
    ∧ (resolveProjectsCreateRandomOptions y b).ProjectBaseName
        = b.projectBaseName.getD (y.projectBaseName.getD "")
    ∧ (resolveProjectsCreateRandomOptions y b).ProjectCount
        = b.projectCount.getD (y.projectCount.getD 0) :=
  ⟨rfl, rfl, rfl, rfl, rfl, rfl, rfl, rfl, rfl, rfl⟩

/-- C2: Loading an options.xml file leaves `GlobalOptions.OptionsFileName`
unchanged.  The field carries the struct tag `xml:"-"`, so it is
structurally excluded from XML deserialization: even a document whose
`optionsFileName` component attempts to set it has no effect, and the
value after the load equals the value before (default or
CLI-supplied). -/
theorem optionsFileName_never_set_by_file (opts : GlobalOptions)
    (x : GlobalOptionsXml) :
    (GlobalOptions.decodeXml opts x).OptionsFileName = opts.OptionsFileName :=
  rfl

/-- When every page of the fuzzy search succeeds, the cursor walk of
`FindExactGroup` returns the first group, in page-and-item order, whose
full path equals the search string exactly, and the not-found error
when there is none. -/
theorem findExactGroupPages_ok_pages (name : String)
    (pss : List (List Group)) :
    findExactGroupPages name (pss.map Except.ok) =
      match pss.flatten.find? (fun g => g.FullPath == name) with
      | some g => .ok g
      | none =>
          .error ("FindExactGroup: could not find exact match for group: " ++
            quoteGo name) := by
  induction pss with
  | nil => rfl
  | cons ps rest ih =>
      simp only [List.map_cons, findExactGroupPages, List.flatten_cons,
        List.find?_append]
      cases h : ps.find? (fun g => g.FullPath == name) with
      | some g => simp [h, Option.or]
      | none => simpa [h, Option.or] using ih

/-- C3 counterexample: resolving the root name `dup` against a search
service on which two distinct groups (IDs 1 and 2) both have canonical
full path `dup` does not produce an ambiguity error: `FindExactGroup`
returns the first of the two colliding groups. -/
theorem findExactGroup_collision_not_detected :
    dupService.searchPages "dup" = [.ok [⟨1, "dup"⟩, ⟨2, "dup"⟩]]
    ∧ FindExactGroup dupService "dup" = .ok ⟨1, "dup"⟩ :=
  ⟨rfl, rfl⟩

/-- C3 amended: root resolution matches by exact string equality of
canonical full path over the fuzzy search results, and zero exact
matches is an error (`could not find exact match`); but more than one
exact match is not detected: the first exact match in page order is
returned, so colliding canonical paths are never reported. -/
theorem findExactGroup_first_exact_match (svc : GroupsService)
    (name : String) (pss : List (List Group))
    (h : svc.searchPages name = pss.map Except.ok) :
    FindExactGroup svc name =
      match pss.flatten.find? (fun g => g.FullPath == name) with
      | some g => .ok g
      | none =>
          .error ("FindExactGroup: could not find exact match for group: " ++
            quoteGo name) := by
  unfold FindExactGroup
  rw [h]
  exact findExactGroupPages_ok_pages name pss

/-- Witness for `findExactGroup_first_exact_match` at the colliding
search service: the first of the two exact matches is returned. -/
theorem findExactGroup_first_exact_match_witness :
    FindExactGroup dupService "dup" = .ok ⟨1, "dup"⟩ := by
  have h := findExactGroup_first_exact_match dupService "dup"
    [[⟨1, "dup"⟩, ⟨2, "dup"⟩]] rfl
  simpa using h

/-- The item loop under the collecting callback of `GetAllProjects`
appends exactly the matching projects of the page, in page order. -/
theorem forEachProjectPage_collect (g : Group) (r : Regexp)
    (acc : List Project) (ps : List Project) :
    forEachProjectPage (fun s (_ : Group) p => .ok (true, s ++ [p])) g r acc ps
      = .ok (true, acc ++ ps.filter (fun p => r.MatchString p.PathWithNamespace)) := by
  induction ps generalizing acc with
  | nil => simp [forEachProjectPage]
  | cons p ps ih =>
      cases h : r.MatchString p.PathWithNamespace with
      | true => simp [forEachProjectPage, h, ih, List.filter_cons]
      | false => simp [forEachProjectPage, h, ih, List.filter_cons]

/-- The page loop under the collecting callback of `GetAllProjects`
computes `matchedProjects`, appended to the accumulator. -/
theorem forEachProjectPages_collect (g : Group) (r : Regexp)
    (acc : List Project) (pages : List (Page Project)) :
    forEachProjectPages (fun s (_ : Group) p => .ok (true, s ++ [p])) g r acc pages
      = (matchedProjects r pages).map (fun l => acc ++ l) := by
  induction pages generalizing acc with
  | nil => simp [forEachProjectPages, matchedProjects, Except.map]
  | cons pg rest ih =>
      cases pg with
      | error e => simp [forEachProjectPages, matchedProjects, Except.map]
      | ok ps =>
          simp only [forEachProjectPages, forEachProjectPage_collect]
          rw [ih]
          cases h : matchedProjects r rest with
          | error e => simp [matchedProjects, h, Except.map]
          | ok l => simp [matchedProjects, h, Except.map]

/-- The item loop under an always-continue visitor folds the visitor
over the matching projects of the page. -/
theorem forEachProjectPage_fold {σ : Type} (vis : σ → Group → Project → σ)
    (g : Group) (r : Regexp) (s : σ) (ps : List Project) :
    forEachProjectPage (fun s gg p => .ok (true, vis s gg p)) g r s ps
      = .ok (true,
          (ps.filter (fun p => r.MatchString p.PathWithNamespace)).foldl
            (fun s p => vis s g p) s) := by
  induction ps generalizing s with
  | nil => simp [forEachProjectPage]
  | cons p ps ih =>
      cases h : r.MatchString p.PathWithNamespace with
      | true => simp [forEachProjectPage, h, ih, List.filter_cons]
      | false => simp [forEachProjectPage, h, ih, List.filter_cons]

/-- The page loop under an always-continue visitor folds the visitor
over the collected matching projects. -/
theorem forEachProjectPages_fold {σ : Type} (vis : σ → Group → Project → σ)
    (g : Group) (r : Regexp) (s : σ) (pages : List (Page Project))
    (L : List Project) (h : matchedProjects r pages = .ok L) :
    forEachProjectPages (fun s gg p => .ok (true, vis s gg p)) g r s pages
      = .ok (L.foldl (fun s p => vis s g p) s) := by
  induction pages generalizing s L with
  | nil =>
      simp only [matchedProjects, Except.ok.injEq] at h
      subst h
      simp [forEachProjectPages]
  | cons pg rest ih =>
      cases pg with
      | error e => simp [matchedProjects] at h
      | ok ps =>
          simp only [matchedProjects] at h
          cases hr : matchedProjects r rest with
          | error e => rw [hr] at h; cases h
          | ok l =>
              rw [hr] at h
              simp only [Except.ok.injEq] at h
              subst h
              simp only [forEachProjectPages, forEachProjectPage_fold]
              rw [ih _ _ hr]
              simp [List.foldl_append]

/-- On an error-free page list, `matchedProjects` is the filtered
concatenation of the pages. -/
theorem matchedProjects_ok_pages (r : Regexp) (pss : List (List Project)) :
    matchedProjects r (pss.map Except.ok)
      = .ok (pss.flatten.filter (fun p => r.MatchString p.PathWithNamespace)) := by
  induction pss with
  | nil => rfl
  | cons ps rest ih =>
      simp [matchedProjects, ih, List.flatten_cons, List.filter_append]

/-- C6: `GetAllProjects` is the accumulation of `ForEachProjectInGroup`.
For every group, filter expression and recursion flag, `GetAllProjects`
returns exactly the sequence of projects that `ForEachProjectInGroup`
passes to a visitor that always continues, in the same order (stated
for an arbitrary always-continue visitor by folding it over the
collected sequence); and if the underlying traversal fails,
`GetAllProjects` carries no project sequence (the Go function returns a
nil slice) and forwards the wrapped error. -/
theorem getAllProjects_collects_forEach :
    (∀ (σ : Type) (svc : GroupsService) (group expr : String)
        (recursive : Bool) (vis : σ → Group → Project → σ) (s0 : σ)
        (l : List Project) (gr : Group),
        GetAllProjects svc group expr recursive = .ok l →
        FindExactGroup svc group = .ok gr →
        ForEachProjectInGroup svc group expr recursive
          (fun s gg p => .ok (true, vis s gg p)) s0
          = .ok (l.foldl (fun s p => vis s gr p) s0))
    ∧ (∀ (svc : GroupsService) (group expr : String) (recursive : Bool)
        (e : String),
        ForEachProjectInGroup svc group expr recursive
          (fun s (_ : Group) p => .ok (true, s ++ [p])) ([] : List Project)
          = .error e →
        GetAllProjects svc group expr recursive
          = .error ("GetAllProjects: " ++ e)) := by
  constructor
  · intro σ svc group expr recursive vis s0 l gr hga hg
    obtain ⟨r, hr⟩ : ∃ r, Regexp.compile expr = .ok r := ⟨_, rfl⟩
    unfold GetAllProjects at hga
    unfold ForEachProjectInGroup at hga ⊢
    simp only [hg, hr] at hga ⊢
    rw [forEachProjectPages_collect] at hga
    cases hm : matchedProjects r (svc.projectPages gr.ID recursive) with
    | error e => rw [hm] at hga; simp [Except.map] at hga
    | ok L =>
        rw [hm] at hga
        simp only [Except.map, List.nil_append, Except.ok.injEq] at hga
        obtain rfl : L = l := hga
        exact forEachProjectPages_fold vis gr r s0 _ L hm
  · intro svc group expr recursive e hfe
    unfold GetAllProjects
    rw [hfe]

/-- Witness for `getAllProjects_collects_forEach`: on the concrete
`g1` service a counting visitor sees all three collected projects, and
on a failing search service the wrapped error is forwarded. -/
theorem getAllProjects_collects_forEach_witness :
    ForEachProjectInGroup g1Service "g1" "" false
      (fun (n : Nat) (_ : Group) (_ : Project) => .ok (true, n + 1)) 0 = .ok 3
    ∧ GetAllProjects errorSearchService "g" "" false
      = .error "GetAllProjects: ForEachProjectInGroup: FindExactGroup: boom" := by
  constructor
  · have h := getAllProjects_collects_forEach.1 Nat g1Service "g1" "" false
      (fun n _ _ => n + 1) 0 [⟨10, "g1/a"⟩, ⟨11, "g1/b"⟩, ⟨12, "g1/ax"⟩]
      ⟨1, "g1"⟩ rfl rfl
    simpa using h
  · exact getAllProjects_collects_forEach.2 errorSearchService "g" "" false
      "ForEachProjectInGroup: FindExactGroup: boom" rfl

/-- C7: Filter semantics.  The visitor is invoked exactly on those
candidate projects whose fully-qualified path (`PathWithNamespace`)
matches the compiled pattern — the bare name is never the match
target; an empty pattern matches every candidate; and on a root group
`g1` containing projects `g1/a`, `g1/b`, `g1/ax`, a non-recursive
traversal with filter `a` anchored at the end of the string visits
only `g1/a`. -/
theorem filter_matches_full_path :
    (∀ (svc : GroupsService) (group expr : String) (recursive : Bool)
        (gr : Group) (r : Regexp) (pss : List (List Project)),
        FindExactGroup svc group = .ok gr →
        Regexp.compile expr = .ok r →
        svc.projectPages gr.ID recursive = pss.map Except.ok →
        ForEachProjectInGroup svc group expr recursive
          (fun s (_ : Group) p => .ok (true, s ++ [p])) ([] : List Project)
          = .ok (pss.flatten.filter (fun p => r.MatchString p.PathWithNamespace)))
    ∧ (∀ (r : Regexp) (s : String), Regexp.compile "" = .ok r →
        r.MatchString s = true)
    ∧ ForEachProjectInGroup g1Service "g1" "a$" false
        (fun s (_ : Group) p => .ok (true, s ++ [p])) ([] : List Project)
        = .ok [⟨10, "g1/a"⟩] := by
  refine ⟨?_, ?_, ?_⟩
  · intro svc group expr recursive gr r pss hg hc hp
    unfold ForEachProjectInGroup
    simp only [hg, hc, hp]
    rw [forEachProjectPages_collect, matchedProjects_ok_pages]
    simp [Except.map]
  · intro r s h
    have h2 : Regexp.compile "" = .ok ⟨String.mk [], false, false⟩ := rfl
    rw [h2] at h
    injection h with h
    subst h
    show containsSubstr s (String.mk []) = true
    rw [containsSubstr, List.any_eq_true]
    exact ⟨0, List.mem_range.mpr (Nat.succ_pos _),
      by simp [String.toList, List.isPrefixOf]⟩
  · rfl

/-- Witness for `filter_matches_full_path`: with the empty pattern the
traversal of the `g1` service visits all three projects. -/
theorem filter_matches_full_path_witness :
    ForEachProjectInGroup g1Service "g1" "" false
      (fun s (_ : Group) p => .ok (true, s ++ [p])) ([] : List Project)
      = .ok [⟨10, "g1/a"⟩, ⟨11, "g1/b"⟩, ⟨12, "g1/ax"⟩] := by
  have h := filter_matches_full_path.1 g1Service "g1" "" false ⟨1, "g1"⟩
    ⟨String.mk [], false, false⟩ [[⟨10, "g1/a"⟩, ⟨11, "g1/b"⟩, ⟨12, "g1/ax"⟩]]
    rfl rfl rfl
  exact h.trans (by rfl)

/-- C8: Early termination and abort-on-error for every paginated
iteration (projects, approval rules, users).  Stated at both loop
levels of each iteration: once the visitor returns `false` the item
loop stops at once and the page loop returns nil without consuming the
remaining page responses (the result is the same for every continuation
`rest`, including continuations whose next fetch would fail); a visitor
error aborts both loops immediately without visiting further items or
fetching further pages; a page-fetch error is wrapped and returned
immediately; and after the page on which the backing API signals
no-more-pages (`NextPage = 0`, the last element of the page-response
list) the iteration returns. -/
theorem pagination_early_termination :
    (∀ (σ : Type) (f : σ → Group → Project → Except String (Bool × σ))
        (g : Group) (r : Regexp) (s s' : σ) (p : Project) (ps : List Project),
        r.MatchString p.PathWithNamespace = true → f s g p = .ok (false, s') →
        forEachProjectPage f g r s (p :: ps) = .ok (false, s'))
    ∧ (∀ (σ : Type) (f : σ → Group → Project → Except String (Bool × σ))
        (g : Group) (r : Regexp) (s s' : σ) (ps : List Project)
        (rest : List (Page Project)),
        forEachProjectPage f g r s ps = .ok (false, s') →
        forEachProjectPages f g r s (.ok ps :: rest) = .ok s')
    ∧ (∀ (σ : Type) (f : σ → Group → Project → Except String (Bool × σ))
        (g : Group) (r : Regexp) (s : σ) (p : Project) (ps : List Project)
        (e : String),
        r.MatchString p.PathWithNamespace = true → f s g p = .error e →
        forEachProjectPage f g r s (p :: ps) = .error e)
    ∧ (∀ (σ : Type) (f : σ → Group → Project → Except String (Bool × σ))
        (g : Group) (r : Regexp) (s : σ) (ps : List Project)
        (rest : List (Page Project)) (e : String),
        forEachProjectPage f g r s ps = .error e →
        forEachProjectPages f g r s (.ok ps :: rest) = .error e)
    ∧ (∀ (σ : Type) (f : σ → Group → Project → Except String (Bool × σ))
        (g : Group) (r : Regexp) (s : σ) (e : String)
        (rest : List (Page Project)),
        forEachProjectPages f g r s (.error e :: rest)
          = .error ("ForEachProjectInGroup: " ++ e ++ "\n"))
    ∧ (∀ (σ : Type) (f : σ → Group → Project → Except String (Bool × σ))
        (g : Group) (r : Regexp) (s s' : σ) (ps : List Project),
        forEachProjectPage f g r s ps = .ok (true, s') →
        forEachProjectPages f g r s [.ok ps] = .ok s')
    ∧ (∀ (σ : Type) (f : σ → ProjectApprovalRule → Except String (Bool × σ))
        (s s' : σ) (rule : ProjectApprovalRule)
        (rules : List ProjectApprovalRule),
        f s rule = .ok (false, s') →
        forEachApprovalRulePage f s (rule :: rules) = .ok (false, s'))
    ∧ (∀ (σ : Type) (f : σ → ProjectApprovalRule → Except String (Bool × σ))
        (s s' : σ) (rules : List ProjectApprovalRule)
        (rest : List (Page ProjectApprovalRule)),
        forEachApprovalRulePage f s rules = .ok (false, s') →
        forEachApprovalRulePages f s (.ok rules :: rest) = .ok s')
    ∧ (∀ (σ : Type) (f : σ → ProjectApprovalRule → Except String (Bool × σ))
        (s : σ) (rule : ProjectApprovalRule)
        (rules : List ProjectApprovalRule) (e : String),
        f s rule = .error e →
        forEachApprovalRulePage f s (rule :: rules) = .error e)
    ∧ (∀ (σ : Type) (f : σ → ProjectApprovalRule → Except String (Bool × σ))
        (s : σ) (rules : List ProjectApprovalRule)
        (rest : List (Page ProjectApprovalRule)) (e : String),
        forEachApprovalRulePage f s rules = .error e →
        forEachApprovalRulePages f s (.ok rules :: rest) = .error e)
    ∧ (∀ (σ : Type) (f : σ → ProjectApprovalRule → Except String (Bool × σ))
        (s : σ) (e : String) (rest : List (Page ProjectApprovalRule)),
        forEachApprovalRulePages f s (.error e :: rest)
          = .error ("ForEachApprovalRuleInProject: " ++ e ++ "\n"))
    ∧ (∀ (σ : Type) (f : σ → ProjectApprovalRule → Except String (Bool × σ))
        (s s' : σ) (rules : List ProjectApprovalRule),
        forEachApprovalRulePage f s rules = .ok (true, s') →
        forEachApprovalRulePages f s [.ok rules] = .ok s')
    ∧ (∀ (σ : Type) (f : σ → User → Except String (Bool × σ)) (s s' : σ)
        (u : User) (us : List User),
        f s u = .ok (false, s') →
        forEachUserPage f s (u :: us) = .ok (false, s'))
    ∧ (∀ (σ : Type) (f : σ → User → Except String (Bool × σ)) (s s' : σ)
        (us : List User) (rest : List (Page User)),
        forEachUserPage f s us = .ok (false, s') →
        forEachUserPages f s (.ok us :: rest) = .ok s')
    ∧ (∀ (σ : Type) (f : σ → User → Except String (Bool × σ)) (s : σ)
        (u : User) (us : List User) (e : String),
        f s u = .error e → forEachUserPage f s (u :: us) = .error e)
    ∧ (∀ (σ : Type) (f : σ → User → Except String (Bool × σ)) (s : σ)
        (us : List User) (rest : List (Page User)) (e : String),
        forEachUserPage f s us = .error e →
        forEachUserPages f s (.ok us :: rest) = .error e)
    ∧ (∀ (σ : Type) (f : σ → User → Except String (Bool × σ)) (s : σ)
        (e : String) (rest : List (Page User)),
        forEachUserPages f s (.error e :: rest)
          = .error ("ForEachUser: " ++ e ++ "\n"))
    ∧ (∀ (σ : Type) (f : σ → User → Except String (Bool × σ)) (s s' : σ)
        (us : List User),
        forEachUserPage f s us = .ok (true, s') →
        forEachUserPages f s [.ok us] = .ok s') := by
  refine ⟨?_, ?_, ?_, ?_, ?_, ?_, ?_, ?_, ?_, ?_, ?_, ?_, ?_, ?_, ?_, ?_, ?_, ?_⟩
  · intro σ f g r s s' p ps hm hf
    simp [forEachProjectPage, hm, hf]
  · intro σ f g r s s' ps rest h
    simp [forEachProjectPages, h]
  · intro σ f g r s p ps e hm hf
    simp [forEachProjectPage, hm, hf]
  · intro σ f g r s ps rest e h
    simp [forEachProjectPages, h]
  · intro σ f g r s e rest
    simp [forEachProjectPages]
  · intro σ f g r s s' ps h
    simp [forEachProjectPages, h]
  · intro σ f s s' rule rules hf
    simp [forEachApprovalRulePage, hf]
  · intro σ f s s' rules rest h
    simp [forEachApprovalRulePages, h]
  · intro σ f s rule rules e hf
    simp [forEachApprovalRulePage, hf]
  · intro σ f s rules rest e h
    simp [forEachApprovalRulePages, h]
  · intro σ f s e rest
    simp [forEachApprovalRulePages]
  · intro σ f s s' rules h
    simp [forEachApprovalRulePages, h]
  · intro σ f s s' u us hf
    simp [forEachUserPage, hf]
  · intro σ f s s' us rest h
    simp [forEachUserPages, h]
  · intro σ f s u us e hf
    simp [forEachUserPage, hf]
  · intro σ f s us rest e h
    simp [forEachUserPages, h]
  · intro σ f s e rest
    simp [forEachUserPages]
  · intro σ f s s' us h
    simp [forEachUserPages, h]

/-- Witness for `pagination_early_termination`: a visitor that refuses
immediately stops the project item loop on its first matching item. -/
theorem pagination_early_termination_witness :
    forEachProjectPage
      (fun (n : Nat) (_ : Group) (_ : Project) => .ok (false, n))
      ⟨1, "g"⟩ ⟨String.mk [], false, false⟩ 0 [⟨2, "g/p"⟩, ⟨3, "g/q"⟩]
      = .ok (false, 0) :=
  pagination_early_termination.1 Nat
    (fun n _ _ => .ok (false, n)) ⟨1, "g"⟩ ⟨String.mk [], false, false⟩ 0 0
    ⟨2, "g/p"⟩ [⟨3, "g/q"⟩] (by rfl) rfl

/-- C4 counterexample: with `dryRun = false`, a parent group `g1` and a
projects service on which every creation fails, asking for two random
projects issues only one create call and returns the first item's
error: the bulk create loop does not continue to the next item after a
per-item failure. -/
theorem create_random_abort_counterexample :
    (CreateRandomProjects g1Service failingProjectsService
        (fun i => toString i) "g1" "t" 2 false).calls
      = [{ NamespaceID := 1, Path := "t-0", Description := "Test Project",
           MergeRequestsEnabled := true, SnippetsEnabled := true,
           Visibility := "public" }]
    ∧ (CreateRandomProjects g1Service failingProjectsService
        (fun i => toString i) "g1" "t" 2 false).result
      = .error "CreateProject: boom" :=
  ⟨rfl, rfl⟩

/-- C4 amended: when the per-item operation fails with `dryRun = false`,
the bulk create-random loop and the bulk delete loop abort the batch
immediately: the loop output is exactly the failing item's effects and
the (wrapped) error, independent of how many items remain, so the
remaining items are neither attempted nor reported. -/
theorem bulk_loops_abort_on_item_failure :
    (∀ (svc : ProjectsService) (g : Group) (base : String)
        (uuids : Nat → String) (dryRun : Bool) (i n : Nat) (e : String),
        (CreateRandomProject svc g base (uuids i) dryRun).result = .error e →
        createRandomProjectsLoop svc g base uuids dryRun i (n + 1)
          = { output := (CreateRandomProject svc g base (uuids i) dryRun).output
              calls := (CreateRandomProject svc g base (uuids i) dryRun).calls
              result := .error e })
    ∧ (∀ (svc : ProjectsService) (dryRun : Bool) (p : Project)
        (ps : List Project) (e : String),
        (DeleteProject svc p dryRun).result = .error e →
        deleteProjectsLoop svc dryRun (p :: ps)
          = { output := (DeleteProject svc p dryRun).output
              calls := (DeleteProject svc p dryRun).calls
              result := .error ("DeleteProjects: " ++ e) }) := by
  constructor
  · intro svc g base uuids dryRun i n e h
    simp [createRandomProjectsLoop, h]
  · intro svc dryRun p ps e h
    simp [deleteProjectsLoop, h]

/-- Witness for `bulk_loops_abort_on_item_failure`: the failing create
service stops the loop after its first item. -/
theorem bulk_loops_abort_on_item_failure_witness :
    createRandomProjectsLoop failingProjectsService ⟨1, "g1"⟩ "t"
      (fun i => toString i) false 0 2
      = { output := ["- Creating project: \"g1/t-0\" ... "]
          calls := [{ NamespaceID := 1, Path := "t-0",
                      Description := "Test Project",
                      MergeRequestsEnabled := true, SnippetsEnabled := true,
                      Visibility := "public" }]
          result := .error "CreateProject: boom" } := by
  have h := bulk_loops_abort_on_item_failure.1 failingProjectsService ⟨1, "g1"⟩
    "t" (fun i => toString i) false 0 1 "CreateProject: boom" rfl
  exact h.trans (by rfl)

/-- With `dryRun = true` the create loop reports every requested item
and issues no create call. -/
theorem createRandomProjectsLoop_dryRun (svc : ProjectsService) (g : Group)
    (base : String) (uuids : Nat → String) (i n : Nat) :
    createRandomProjectsLoop svc g base uuids true i n
      = { output := ((List.range' i n).map (fun k =>
            ["- Creating project: " ++
               quoteGo (g.FullPath ++ "/" ++ (base ++ "-" ++ uuids k)) ++
               " ... ", "Done.\n"])).flatten
          calls := []
          result := .ok () } := by
  induction n generalizing i with
  | zero => simp [createRandomProjectsLoop, List.range']
  | succ n ih =>
      simp [createRandomProjectsLoop, CreateRandomProject, ih, List.range']

/-- With `dryRun = true` the delete loop reports every collected item
and issues no delete call. -/
theorem deleteProjectsLoop_dryRun (svc : ProjectsService)
    (ps : List Project) :
    deleteProjectsLoop svc true ps
      = { output := (ps.map (fun p =>
            ["- Deleting project: " ++ quoteGo p.PathWithNamespace ++ " ... ",
             "Done.\n"])).flatten
          calls := []
          result := .ok () } := by
  induction ps with
  | nil => simp [deleteProjectsLoop]
  | cons p ps ih => simp [deleteProjectsLoop, DeleteProject, ih]

/-- C5: With `dryRun = true` the bulk mutators issue zero network
mutation calls — the per-item create/delete/update operation is never
invoked for any item — while each item is still reported as it would
have been processed, and the call returns without error. -/
theorem dry_run_issues_no_mutation_calls :
    (∀ (gsvc : GroupsService) (psvc : ProjectsService) (uuids : Nat → String)
        (parentGroup base : String) (count : Nat) (g : Group),
        FindExactGroup gsvc parentGroup = .ok g →
        CreateRandomProjects gsvc psvc uuids parentGroup base count true
          = { output := ("- Searching for ID for parent group " ++
                  quoteGo parentGroup ++ " ... ") :: "Done.\n" ::
                ((List.range' 0 count).map (fun k =>
                  ["- Creating project: " ++
                     quoteGo (g.FullPath ++ "/" ++ (base ++ "-" ++ uuids k)) ++
                     " ... ", "Done.\n"])).flatten
              calls := []
              result := .ok () })
    ∧ (∀ (psvc : ProjectsService) (ps : List Project),
        deleteProjectsLoop psvc true ps
          = { output := (ps.map (fun p =>
                ["- Deleting project: " ++ quoteGo p.PathWithNamespace ++
                   " ... ", "Done.\n"])).flatten
              calls := []
              result := .ok () })
    ∧ (∀ (usvc : UpdateRuleService) (pid : Int) (rule : ProjectApprovalRule)
        (ids : List Int),
        updateApprovalRuleCmd usvc pid rule ids true
          = { output := ["    Updating rule " ++ toString rule.ID ++ " (" ++
                quoteGo rule.Name ++ ") ... ", "Done.\n"]
              calls := []
              result := .ok () }) := by
  refine ⟨?_, ?_, ?_⟩
  · intro gsvc psvc uuids parentGroup base count g hg
    simp [CreateRandomProjects, hg, createRandomProjectsLoop_dryRun]
  · intro psvc ps
    exact deleteProjectsLoop_dryRun psvc ps
  · intro usvc pid rule ids
    simp [updateApprovalRuleCmd]

/-- Witness for `dry_run_issues_no_mutation_calls`: a dry run over a
projects service on which every real mutation would fail still
succeeds, reports both requested projects and issues no call. -/
theorem dry_run_issues_no_mutation_calls_witness :
    CreateRandomProjects g1Service failingProjectsService
      (fun i => toString i) "g1" "t" 2 true
      = { output := ["- Searching for ID for parent group \"g1\" ... ",
                     "Done.\n",
                     "- Creating project: \"g1/t-0\" ... ", "Done.\n",
                     "- Creating project: \"g1/t-1\" ... ", "Done.\n"]
          calls := []
          result := .ok () } := by
  have h := dry_run_issues_no_mutation_calls.1 g1Service failingProjectsService
    (fun i => toString i) "g1" "t" 2 ⟨1, "g1"⟩ rfl
  exact h.trans (by rfl)

/-- C9: `UpdateApprovalRule` sends an update whose name,
required-approval count, group-ID list, protected-branch-ID list and
applies-to-all-protected-branches flag equal the existing rule's
values, with only the authorized-approver (user-ID) list replaced by
the caller-supplied list; the call addresses the given project and the
existing rule's ID. -/
theorem update_rule_preserves_all_other_fields (svc : UpdateRuleService)
    (projectID : Int) (rule : ProjectApprovalRule) (userIDs : List Int) :
    ((UpdateApprovalRule svc projectID rule userIDs).1.opts.Name = rule.Name)
    ∧ ((UpdateApprovalRule svc projectID rule userIDs).1.opts.ApprovalsRequired
        = rule.ApprovalsRequired)
    ∧ ((UpdateApprovalRule svc projectID rule userIDs).1.opts.GroupIDs
        = rule.Groups.map (fun g => g.ID))
    ∧ ((UpdateApprovalRule svc projectID rule userIDs).1.opts.ProtectedBranchIDs
        = rule.ProtectedBranches.map (fun b => b.ID))
    ∧ ((UpdateApprovalRule svc projectID rule
          userIDs).1.opts.AppliesToAllProtectedBranches
        = rule.AppliesToAllProtectedBranches)
    ∧ ((UpdateApprovalRule svc projectID rule userIDs).1.opts.UserIDs = userIDs)
    ∧ ((UpdateApprovalRule svc projectID rule userIDs).1.ruleID = rule.ID)
    ∧ ((UpdateApprovalRule svc projectID rule userIDs).1.projectID = projectID) :=
  ⟨rfl, rfl, rfl, rfl, rfl, rfl, rfl, rfl⟩

/-- C10: If reading the approvers XML file fails, the "projects
approval-rules update" command's `Run` returns nil: the run reports
success, performs no rule updates (the issued update-call list is
empty), and the read error is silently discarded rather than
surfaced. -/
theorem approvers_read_error_silently_discarded (gsvc : GroupsService)
    (rsvc : ApprovalRulesGetter) (usvc : UpdateRuleService)
    (opts : ProjectsApprovalRulesUpdateOptions) (e : String)
    (h1 : opts.ApproversFileName ≠ "") (h2 : opts.Group ≠ "") :
    projectsApprovalRulesUpdateRun gsvc rsvc usvc (.error e) opts = .ok [] := by
  unfold projectsApprovalRulesUpdateRun
  rw [if_neg h1, if_neg h2]

/-- Witness for `approvers_read_error_silently_discarded` at a missing
approvers file. -/
theorem approvers_read_error_silently_discarded_witness :
    projectsApprovalRulesUpdateRun g1Service oneRuleGetter okUpdateService
      (.error "open approvers.xml: no such file or directory")
      ⟨"approvers.xml", false, "", "g1", false⟩ = .ok [] :=
  approvers_read_error_silently_discarded g1Service oneRuleGetter
    okUpdateService ⟨"approvers.xml", false, "", "g1", false⟩
    "open approvers.xml: no such file or directory" (by decide) (by decide)

end GitlabCmds
